import Mathlib

/-!
Shallow embedding of the device identity and availability subsystem of
`src/src/HADevice.h` (class `HADevice`).

The header file carries the full class declaration: the read accessors
(`getUniqueId`, `getSerializer`, `isSharedAvailabilityEnabled`,
`isExtendedUniqueIdsEnabled`, `getAvailabilityTopic`, `isAvailable`) and
`enableExtendedUniqueIds` are defined inline in the header and are embedded
directly from that source.  The remaining method bodies (`setUniqueId`,
the metadata setters, `setAvailability`, `enableSharedAvailability`,
`enableLastWill`, `publishAvailability`, the constructors) live in a
translation unit that is not part of the sources; those operations are
modelled from the specification, as marked on each definition.

Strings (`const char*`) are modelled as `List Char`; a null pointer is
`Option.none`.  Bytes (`byte` = `uint8_t`) are `Nat` reduced modulo 256
where the width matters.  The messaging transport is modelled by a
`connected : Bool` argument, and the publishes a call performs are returned
explicitly as a list of `Publish` records.
-/

/-- One MQTT publish performed through the messaging transport:
`publish(topic, payload, retained)`. -/
structure Publish where
  topic : List Char
  payload : List Char
  retained : Bool
deriving DecidableEq, Repr

/-- The state of a `HADevice` instance: the private fields `_uniqueId`,
`_ownsUniqueId`, `_availabilityTopic`, `_sharedAvailability`, `_available`,
`_extendedUniqueIds` of the class, together with the caller-supplied
metadata pointers stored by the setters.  The `HASerializer*` collaborator
carries no state relevant to the claims and is omitted. -/
structure HADevice where
  uniqueId : Option (List Char)
  ownsUniqueId : Bool
  availabilityTopic : Option (List Char)
  sharedAvailability : Bool
  available : Bool
  extendedUniqueIds : Bool
  manufacturer : Option (List Char)
  model : Option (List Char)
  url : Option (List Char)
  name : Option (List Char)
  softwareVersion : Option (List Char)
  configurationUrl : Option (List Char)
deriving DecidableEq, Repr

namespace HADevice

/-- Source (header, inline): `getUniqueId` returns the `_uniqueId` pointer,
possibly null. -/
def getUniqueId (d : HADevice) : Option (List Char) := d.uniqueId

/-- Source (header, inline): `isSharedAvailabilityEnabled` returns
`_sharedAvailability`. -/
def isSharedAvailabilityEnabled (d : HADevice) : Bool := d.sharedAvailability

/-- Source (header, inline): `isExtendedUniqueIdsEnabled` returns
`_extendedUniqueIds`. -/
def isExtendedUniqueIdsEnabled (d : HADevice) : Bool := d.extendedUniqueIds

/-- Source (header, inline): `getAvailabilityTopic` returns the
`_availabilityTopic` pointer, possibly null. -/
def getAvailabilityTopic (d : HADevice) : Option (List Char) := d.availabilityTopic

/-- Source (header, inline): `isAvailable` returns `_available`. -/
def isAvailable (d : HADevice) : Bool := d.available

/-- Source (header, inline): `enableExtendedUniqueIds` sets
`_extendedUniqueIds = true` and nothing else. -/
def enableExtendedUniqueIds (d : HADevice) : HADevice :=
  { d with extendedUniqueIds := true }

/-- The lowercase hexadecimal digit for a value below 16, as produced by the
`%02x`-style formatting used for the hex encoding: digits `0`–`9` are the
characters of code 48–57, values 10–15 the characters `a`–`f`. -/
def hexDigit (n : Nat) : Char :=
  if n < 10 then Char.ofNat (48 + n) else Char.ofNat (87 + n)

/-- Lowercase hex encoding of a byte sequence: each byte (reduced mod 256,
the width of `byte`) becomes its high nibble's digit then its low nibble's
digit. -/
def bytesToHex : List Nat → List Char
  | [] => []
  | b :: bs => hexDigit (b % 256 / 16) :: hexDigit (b % 256 % 16) :: bytesToHex bs

/-- Numeric value of a lowercase hex digit character. -/
def hexVal (c : Char) : Nat :=
  if 97 ≤ c.toNat then c.toNat - 87 else c.toNat - 48

/-- Decode a hex string two characters at a time back into bytes. -/
def hexDecode : List Char → List Nat
  | c1 :: c2 :: rest => (16 * hexVal c1 + hexVal c2) :: hexDecode rest
  | _ => []

/-- A character is a lowercase hexadecimal digit: `0`–`9` or `a`–`f`. -/
def isLowerHexDigit (c : Char) : Prop :=
  (48 ≤ c.toNat ∧ c.toNat ≤ 57) ∨ (97 ≤ c.toNat ∧ c.toNat ≤ 102)

instance (c : Char) : Decidable (isLowerHexDigit c) := by
  unfold isLowerHexDigit; infer_instance

/-- Modelled from the spec: `setUniqueId(bytes, length)` (body not in the
sources).  Fails (returns false, no-op) if a unique ID is already set or the
length is zero; otherwise stores the lowercase hex encoding of the bytes as
the owned unique ID and returns true.  The byte array together with its
`length` argument is modelled as the list `bytes`. -/
def setUniqueId (d : HADevice) (bytes : List Nat) : Bool × HADevice :=
  if d.uniqueId.isSome || bytes.isEmpty then
    (false, d)
  else
    (true, { d with uniqueId := some (bytesToHex bytes), ownsUniqueId := true })

/-- Modelled from the spec: `setManufacturer` stores the pointer verbatim;
last call wins. -/
def setManufacturer (d : HADevice) (s : List Char) : HADevice :=
  { d with manufacturer := some s }

/-- Modelled from the spec: `setModel` stores the pointer verbatim. -/
def setModel (d : HADevice) (s : List Char) : HADevice :=
  { d with model := some s }

/-- Modelled from the spec: `setURL` stores the pointer verbatim. -/
def setURL (d : HADevice) (s : List Char) : HADevice :=
  { d with url := some s }

/-- Modelled from the spec: `setName` stores the pointer verbatim. -/
def setName (d : HADevice) (s : List Char) : HADevice :=
  { d with name := some s }

/-- Modelled from the spec: `setSoftwareVersion` stores the pointer
verbatim. -/
def setSoftwareVersion (d : HADevice) (s : List Char) : HADevice :=
  { d with softwareVersion := some s }

/-- Modelled from the spec: `setConfigurationUrl` stores the pointer
verbatim. -/
def setConfigurationUrl (d : HADevice) (s : List Char) : HADevice :=
  { d with configurationUrl := some s }

/-- The fixed topic part placed before the unique ID in the availability
topic.  The spec fixes only that it is a constant literal. -/
def topicBase : List Char := ['a', 'h', 'a', '/']

/-- The fixed availability suffix placed after the unique ID.  The spec
fixes only that it is a constant literal. -/
def availSuffix : List Char := ['/', 'a', 'v', 't', 'y', '_', 't']

/-- The availability topic derived from a unique ID: fixed base, then the
unique ID, then the fixed availability suffix. -/
def availabilityTopicFor (uid : List Char) : List Char :=
  topicBase ++ uid ++ availSuffix

/-- Modelled from the spec: `enableSharedAvailability` (body not in the
sources).  Fails (returns false) if no unique ID is set; if the topic buffer
already exists it returns true without touching it; otherwise it builds the
topic from the unique ID, sets the flag and returns true. -/
def enableSharedAvailability (d : HADevice) : Bool × HADevice :=
  match d.uniqueId with
  | none => (false, d)
  | some uid =>
    if d.availabilityTopic.isSome then
      (true, d)
    else
      (true, { d with availabilityTopic := some (availabilityTopicFor uid),
                      sharedAvailability := true })

/-- Modelled from the spec: `enableLastWill` configures the messaging
collaborator's last-will message; it touches no field of the device. -/
def enableLastWill (d : HADevice) : HADevice := d

/-- The fixed payload literal meaning "online". -/
def onlineStr : List Char := ['o', 'n', 'l', 'i', 'n', 'e']

/-- The fixed payload literal meaning "offline". -/
def offlineStr : List Char := ['o', 'f', 'f', 'l', 'i', 'n', 'e']

/-- The availability payload for an online/offline state. -/
def availabilityPayload (online : Bool) : List Char :=
  if online then onlineStr else offlineStr

/-- Modelled from the spec: `publishAvailability` (body not in the sources).
It is declared `const`: the state is returned unchanged.  If shared
availability is enabled and the transport is connected it publishes the
current `available` state, retained, on the availability topic; otherwise it
performs no publish. -/
def publishAvailability (d : HADevice) (connected : Bool) : HADevice × List Publish :=
  if connected && d.sharedAvailability then
    (d, [⟨d.availabilityTopic.getD [], availabilityPayload d.available, true⟩])
  else
    (d, [])

/-- Modelled from the spec: `setAvailability(online)` (body not in the
sources).  Always records `available = online`; if the transport is
connected and shared availability is enabled it immediately publishes the
corresponding payload, retained, on the availability topic. -/
def setAvailability (d : HADevice) (connected online : Bool) : HADevice × List Publish :=
  let d2 : HADevice := { d with available := online }
  if connected && d.sharedAvailability then
    (d2, [⟨d.availabilityTopic.getD [], availabilityPayload online, true⟩])
  else
    (d2, [])

/-- Modelled from the spec: the default constructor `HADevice()`.  No unique
ID, nothing owned, no topic, shared availability off, available defaults to
true, extended IDs off, no metadata. -/
def init : HADevice :=
  { uniqueId := none, ownsUniqueId := false, availabilityTopic := none,
    sharedAvailability := false, available := true, extendedUniqueIds := false,
    manufacturer := none, model := none, url := none, name := none,
    softwareVersion := none, configurationUrl := none }

/-- Modelled from the spec: the constructor `HADevice(const char*)` stores
the caller's string as the unique ID without owning it. -/
def initStr (uid : List Char) : HADevice :=
  { init with uniqueId := some uid }

/-- Modelled from the spec: the constructor `HADevice(const byte*, length)`
delegates to `setUniqueId` on the default-constructed state. -/
def initBytes (bytes : List Nat) : HADevice :=
  (init.setUniqueId bytes).2

/-- One invocation of a public mutating operation, with the transport's
connection state supplied where the operation consults it. -/
inductive Op
  | setUniqueId (bytes : List Nat)
  | setManufacturer (s : List Char)
  | setModel (s : List Char)
  | setURL (s : List Char)
  | setName (s : List Char)
  | setSoftwareVersion (s : List Char)
  | setConfigurationUrl (s : List Char)
  | enableExtendedUniqueIds
  | enableSharedAvailability
  | enableLastWill
  | setAvailability (connected online : Bool)
  | publishAvailability (connected : Bool)

/-- The state reached by one public operation (publishes discarded). -/
def applyOp (d : HADevice) : Op → HADevice
  | .setUniqueId bytes => (d.setUniqueId bytes).2
  | .setManufacturer s => d.setManufacturer s
  | .setModel s => d.setModel s
  | .setURL s => d.setURL s
  | .setName s => d.setName s
  | .setSoftwareVersion s => d.setSoftwareVersion s
  | .setConfigurationUrl s => d.setConfigurationUrl s
  | .enableExtendedUniqueIds => d.enableExtendedUniqueIds
  | .enableSharedAvailability => d.enableSharedAvailability.2
  | .enableLastWill => d.enableLastWill
  | .setAvailability c o => (d.setAvailability c o).1
  | .publishAvailability c => (d.publishAvailability c).1

/-- The state reached by a sequence of public operations. -/
def runOps (d : HADevice) (ops : List Op) : HADevice :=
  ops.foldl applyOp d

/-- The states reachable from any of the three constructors by any sequence
of public operations. -/
inductive Reachable : HADevice → Prop
  | empty : Reachable init
  | fromString (uid : List Char) : Reachable (initStr uid)
  | fromBytes (bytes : List Nat) : Reachable (initBytes bytes)
  | step (d : HADevice) (op : Op) : Reachable d → Reachable (applyOp d op)

/-- The state invariant: the availability topic pointer is non-null iff the
shared-availability flag is set, and a non-null topic is exactly the topic
derived from the (then necessarily set) unique ID. -/
def Inv (d : HADevice) : Prop :=
  (d.availabilityTopic.isSome = true ↔ d.sharedAvailability = true) ∧
  (∀ t, d.availabilityTopic = some t →
    ∃ u, d.uniqueId = some u ∧ t = availabilityTopicFor u)

end HADevice

namespace HADevice

/-! ### Hex encoding lemmas -/

theorem hexVal_hexDigit (n : Nat) (h : n < 16) : hexVal (hexDigit n) = n := by
  interval_cases n <;> decide

theorem isLowerHexDigit_hexDigit (n : Nat) (h : n < 16) :
    isLowerHexDigit (hexDigit n) := by
  interval_cases n <;> decide

theorem bytesToHex_length (bytes : List Nat) :
    (bytesToHex bytes).length = 2 * bytes.length := by
  induction bytes with
  | nil => rfl
  | cons b bs ih => simp [bytesToHex, ih]; omega

theorem bytesToHex_lower (bytes : List Nat) :
    ∀ c ∈ bytesToHex bytes, isLowerHexDigit c := by
  induction bytes with
  | nil => intro c hc; cases hc
  | cons b bs ih =>
    intro c hc
    simp only [bytesToHex, List.mem_cons] at hc
    rcases hc with h | h | h
    · exact h ▸ isLowerHexDigit_hexDigit _ (by omega)
    · exact h ▸ isLowerHexDigit_hexDigit _ (by omega)
    · exact ih c h

theorem hexDecode_bytesToHex (bytes : List Nat) (hb : ∀ b ∈ bytes, b < 256) :
    hexDecode (bytesToHex bytes) = bytes := by
  induction bytes with
  | nil => rfl
  | cons b bs ih =>
    have hblt : b < 256 := hb b (List.mem_cons_self b bs)
    have h1 : b % 256 / 16 < 16 := by omega
    have h2 : b % 256 % 16 < 16 := by omega
    simp only [bytesToHex, hexDecode, hexVal_hexDigit _ h1, hexVal_hexDigit _ h2]
    rw [ih fun x hx => hb x (List.mem_cons_of_mem b hx)]
    congr 1
    omega

/-! ### Claims -/

/-- C1: for every nonempty byte array `bytes` passed to `setUniqueId` on an
instance with no unique ID yet, the call returns true and afterwards the
unique ID is a string of exactly `2 * length` characters, all lowercase hex
digits, whose hex decoding yields the input bytes again. -/
theorem setUniqueId_fresh_hex (d : HADevice) (bytes : List Nat)
    (hfresh : d.getUniqueId = none) (hne : bytes ≠ [])
    (hb : ∀ b ∈ bytes, b < 256) :
    (d.setUniqueId bytes).1 = true ∧
    ∃ s, (d.setUniqueId bytes).2.getUniqueId = some s ∧
      s.length = 2 * bytes.length ∧
      (∀ c ∈ s, isLowerHexDigit c) ∧
      hexDecode s = bytes := by
  simp only [getUniqueId] at hfresh
  have hempty : bytes.isEmpty = false := by
    cases bytes with
    | nil => exact absurd rfl hne
    | cons a l => rfl
  refine ⟨?_, bytesToHex bytes, ?_, bytesToHex_length bytes,
    bytesToHex_lower bytes, hexDecode_bytesToHex bytes hb⟩ <;>
    simp [setUniqueId, getUniqueId, hfresh, hempty]

/-- Witness for C1 at the concrete input of the spec's end-to-end example:
the byte array `{0xAB, 0x01}` on a freshly constructed device. -/
theorem setUniqueId_fresh_hex_witness :
    (init.setUniqueId [171, 1]).1 = true ∧
    ∃ s, (init.setUniqueId [171, 1]).2.getUniqueId = some s ∧
      s.length = 2 * ([171, 1] : List Nat).length ∧
      (∀ c ∈ s, isLowerHexDigit c) ∧
      hexDecode s = [171, 1] :=
  setUniqueId_fresh_hex init [171, 1] rfl (by decide) (by decide)

/-- C2: `setUniqueId` returns false and leaves the state entirely unchanged
exactly when a unique ID is already set or the length is zero; and after a
successful call every further call returns false and leaves the state (in
particular the stored ID) unchanged. -/
theorem setUniqueId_fail_iff (d : HADevice) (bytes : List Nat) :
    ((d.setUniqueId bytes).1 = false ↔
      (d.getUniqueId).isSome = true ∨ bytes = []) ∧
    (((d.getUniqueId).isSome = true ∨ bytes = []) →
      d.setUniqueId bytes = (false, d)) ∧
    ((d.setUniqueId bytes).1 = true →
      ∀ bytes2, (d.setUniqueId bytes).2.setUniqueId bytes2 =
        (false, (d.setUniqueId bytes).2)) := by
  cases hu : d.uniqueId with
  | none =>
    cases bytes with
    | nil => simp [setUniqueId, getUniqueId, hu]
    | cons b bs =>
      refine ⟨by simp [setUniqueId, getUniqueId, hu], ?_, ?_⟩
      · simp [getUniqueId, hu]
      · intro _ bytes2
        simp [setUniqueId, hu]
  | some uid =>
    refine ⟨by simp [setUniqueId, getUniqueId, hu], ?_, ?_⟩
    · intro _
      simp [setUniqueId, hu]
    · intro habs
      simp [setUniqueId, hu] at habs

/-- Witness for C2: a device that already carries the ID `"x"`, with the
one-byte input `{5}`, and the second-call clause exercised after a
successful first call. -/
theorem setUniqueId_fail_iff_witness :
    (((initStr ['x']).setUniqueId [5]).1 = false ↔
      ((initStr ['x']).getUniqueId).isSome = true ∨ ([5] : List Nat) = []) ∧
    ((((initStr ['x']).getUniqueId).isSome = true ∨ ([5] : List Nat) = []) →
      (initStr ['x']).setUniqueId [5] = (false, initStr ['x'])) ∧
    (((initStr ['x']).setUniqueId [5]).1 = true →
      ∀ bytes2, ((initStr ['x']).setUniqueId [5]).2.setUniqueId bytes2 =
        (false, ((initStr ['x']).setUniqueId [5]).2)) :=
  setUniqueId_fail_iff (initStr ['x']) [5]

/-- C3: `enableSharedAvailability` on an instance with no unique ID returns
false and performs no mutation at all, so in particular the
shared-availability flag and the availability topic are untouched. -/
theorem enableSharedAvailability_noUid (d : HADevice)
    (h : d.getUniqueId = none) :
    d.enableSharedAvailability = (false, d) := by
  simp only [getUniqueId] at h
  simp [enableSharedAvailability, h]

/-- Witness for C3: a freshly default-constructed device. -/
theorem enableSharedAvailability_noUid_witness :
    init.enableSharedAvailability = (false, init) :=
  enableSharedAvailability_noUid init rfl

/-- C7: once `enableSharedAvailability` has succeeded, every further call
returns true and leaves the state, in particular the availability topic
string, unchanged. -/
theorem enableSharedAvailability_idempotent (d : HADevice)
    (h : (d.enableSharedAvailability).1 = true) :
    (d.enableSharedAvailability).2.enableSharedAvailability =
      (true, (d.enableSharedAvailability).2) := by
  cases hu : d.uniqueId with
  | none => simp [enableSharedAvailability, hu] at h
  | some uid =>
    by_cases ht : d.availabilityTopic.isSome
    · simp [enableSharedAvailability, hu, ht]
    · simp [enableSharedAvailability, hu, ht]

/-- Witness for C7: a device constructed with the string ID `"a"`, on which
the first call succeeds. -/
theorem enableSharedAvailability_idempotent_witness :
    ((initStr ['a']).enableSharedAvailability).2.enableSharedAvailability =
      (true, ((initStr ['a']).enableSharedAvailability).2) :=
  enableSharedAvailability_idempotent (initStr ['a']) rfl

/-- C4: `setAvailability(online)` always records `available = online`; it
publishes the corresponding payload retained on the availability topic iff
the transport is connected and shared availability is enabled, and
otherwise publishes nothing; calling it with `false` then `true` while
connected with shared availability enabled yields exactly the two retained
publishes "offline" then "online". -/
theorem setAvailability_spec (d : HADevice) (c o : Bool) :
    ((d.setAvailability c o).1).isAvailable = o ∧
    ((c && d.isSharedAvailabilityEnabled) = true →
      (d.setAvailability c o).2 =
        [⟨(d.getAvailabilityTopic).getD [], availabilityPayload o, true⟩]) ∧
    ((c && d.isSharedAvailabilityEnabled) = false →
      (d.setAvailability c o).2 = []) ∧
    (d.isSharedAvailabilityEnabled = true →
      (d.setAvailability true false).2 ++
        ((d.setAvailability true false).1.setAvailability true true).2 =
      [⟨(d.getAvailabilityTopic).getD [], offlineStr, true⟩,
       ⟨(d.getAvailabilityTopic).getD [], onlineStr, true⟩]) := by
  refine ⟨?_, ?_, ?_, ?_⟩
  · by_cases h : (c && d.sharedAvailability) = true <;>
      simp [setAvailability, isAvailable, h]
  · intro h
    simp only [isSharedAvailabilityEnabled] at h
    simp [setAvailability, getAvailabilityTopic, h]
  · intro h
    simp only [isSharedAvailabilityEnabled] at h
    simp [setAvailability, h]
  · intro h
    simp only [isSharedAvailabilityEnabled] at h
    simp [setAvailability, getAvailabilityTopic, availabilityPayload, h]

/-- Witness for C4: a device with the ID `"a"` and shared availability
enabled, transport connected, switching to offline. -/
theorem setAvailability_spec_witness :
    let d := ((initStr ['a']).enableSharedAvailability).2
    ((d.setAvailability true false).1).isAvailable = false ∧
    ((true && d.isSharedAvailabilityEnabled) = true →
      (d.setAvailability true false).2 =
        [⟨(d.getAvailabilityTopic).getD [], availabilityPayload false, true⟩]) ∧
    ((true && d.isSharedAvailabilityEnabled) = false →
      (d.setAvailability true false).2 = []) ∧
    (d.isSharedAvailabilityEnabled = true →
      (d.setAvailability true false).2 ++
        ((d.setAvailability true false).1.setAvailability true true).2 =
      [⟨(d.getAvailabilityTopic).getD [], offlineStr, true⟩,
       ⟨(d.getAvailabilityTopic).getD [], onlineStr, true⟩]) :=
  setAvailability_spec ((initStr ['a']).enableSharedAvailability).2 true false

/-- C5: `publishAvailability` never changes the device state (the method is
`const`), and it publishes the current availability retained on the
availability topic iff shared availability is enabled and the transport is
connected; otherwise it publishes nothing. -/
theorem publishAvailability_spec (d : HADevice) (c : Bool) :
    (d.publishAvailability c).1 = d ∧
    ((c && d.isSharedAvailabilityEnabled) = true →
      (d.publishAvailability c).2 =
        [⟨(d.getAvailabilityTopic).getD [],
          availabilityPayload d.isAvailable, true⟩]) ∧
    ((c && d.isSharedAvailabilityEnabled) = false →
      (d.publishAvailability c).2 = []) := by
  refine ⟨?_, ?_, ?_⟩
  · by_cases h : (c && d.sharedAvailability) = true <;>
      simp [publishAvailability, h]
  · intro h
    simp only [isSharedAvailabilityEnabled] at h
    simp [publishAvailability, getAvailabilityTopic, isAvailable, h]
  · intro h
    simp only [isSharedAvailabilityEnabled] at h
    simp [publishAvailability, h]

/-- Witness for C5: a device with shared availability enabled but the
transport disconnected — no publish, state intact. -/
theorem publishAvailability_spec_witness :
    let d := ((initStr ['a']).enableSharedAvailability).2
    (d.publishAvailability false).1 = d ∧
    ((false && d.isSharedAvailabilityEnabled) = true →
      (d.publishAvailability false).2 =
        [⟨(d.getAvailabilityTopic).getD [],
          availabilityPayload d.isAvailable, true⟩]) ∧
    ((false && d.isSharedAvailabilityEnabled) = false →
      (d.publishAvailability false).2 = []) :=
  publishAvailability_spec ((initStr ['a']).enableSharedAvailability).2 false

/-- C10: `enableExtendedUniqueIds` has no precondition and touches only the
extended-unique-IDs flag: every other observable field is unchanged, and
the flag reads true afterwards, also when no unique ID is set. -/
theorem enableExtendedUniqueIds_frame (d : HADevice) :
    (d.enableExtendedUniqueIds).isExtendedUniqueIdsEnabled = true ∧
    (d.enableExtendedUniqueIds).getUniqueId = d.getUniqueId ∧
    (d.enableExtendedUniqueIds).ownsUniqueId = d.ownsUniqueId ∧
    (d.enableExtendedUniqueIds).getAvailabilityTopic = d.getAvailabilityTopic ∧
    (d.enableExtendedUniqueIds).isSharedAvailabilityEnabled
      = d.isSharedAvailabilityEnabled ∧
    (d.enableExtendedUniqueIds).isAvailable = d.isAvailable ∧
    (d.enableExtendedUniqueIds).manufacturer = d.manufacturer ∧
    (d.enableExtendedUniqueIds).model = d.model ∧
    (d.enableExtendedUniqueIds).url = d.url ∧
    (d.enableExtendedUniqueIds).name = d.name ∧
    (d.enableExtendedUniqueIds).softwareVersion = d.softwareVersion ∧
    (d.enableExtendedUniqueIds).configurationUrl = d.configurationUrl := by
  simp [enableExtendedUniqueIds, isExtendedUniqueIdsEnabled, getUniqueId,
    getAvailabilityTopic, isSharedAvailabilityEnabled, isAvailable]

/-! ### The reachable-state invariant -/

theorem inv_init : Inv init := by
  refine ⟨by simp [init], ?_⟩
  intro t ht
  simp [init] at ht

theorem inv_applyOp (d : HADevice) (op : Op) (h : Inv d) : Inv (applyOp d op) := by
  obtain ⟨h1, h2⟩ := h
  cases op with
  | setUniqueId bytes =>
    by_cases hc : (d.uniqueId.isSome || bytes.isEmpty) = true
    · simpa [applyOp, setUniqueId, hc] using ⟨h1, h2⟩
    · have hnone : d.availabilityTopic = none := by
        cases ht : d.availabilityTopic with
        | none => rfl
        | some t =>
          obtain ⟨u, hu, _⟩ := h2 t ht
          simp [hu] at hc
      refine ⟨?_, ?_⟩
      · simpa [applyOp, setUniqueId, hc, hnone] using h1
      · intro t ht
        simp [applyOp, setUniqueId, hc, hnone] at ht
  | setManufacturer s => exact ⟨h1, h2⟩
  | setModel s => exact ⟨h1, h2⟩
  | setURL s => exact ⟨h1, h2⟩
  | setName s => exact ⟨h1, h2⟩
  | setSoftwareVersion s => exact ⟨h1, h2⟩
  | setConfigurationUrl s => exact ⟨h1, h2⟩
  | enableExtendedUniqueIds => exact ⟨h1, h2⟩
  | enableLastWill => exact ⟨h1, h2⟩
  | setAvailability c o =>
    by_cases hc : (c && d.sharedAvailability) = true <;>
      simpa [applyOp, setAvailability, hc] using ⟨h1, h2⟩
  | publishAvailability c =>
    by_cases hc : (c && d.sharedAvailability) = true <;>
      simpa [applyOp, publishAvailability, hc] using ⟨h1, h2⟩
  | enableSharedAvailability =>
    cases hu : d.uniqueId with
    | none => simpa [applyOp, enableSharedAvailability, hu] using ⟨h1, h2⟩
    | some uid =>
      by_cases ht : d.availabilityTopic.isSome = true
      · simpa [applyOp, enableSharedAvailability, hu, ht] using ⟨h1, h2⟩
      · refine ⟨by simp [applyOp, enableSharedAvailability, hu, ht], ?_⟩
        intro t hteq
        simp [applyOp, enableSharedAvailability, hu, ht] at hteq
        exact ⟨uid, by simp [applyOp, enableSharedAvailability, hu, ht], hteq.symm⟩

theorem inv_reachable (d : HADevice) (h : Reachable d) : Inv d := by
  induction h with
  | empty => exact inv_init
  | fromString uid =>
    refine ⟨by simp [initStr, init], ?_⟩
    intro t ht
    simp [initStr, init] at ht
  | fromBytes bytes => exact inv_applyOp init (Op.setUniqueId bytes) inv_init
  | step d op _ ih => exact inv_applyOp d op ih

/-- C6: in every state reachable from any constructor by any sequence of
public operations, the availability topic pointer is non-null exactly when
the shared-availability flag reads true. -/
theorem availabilityTopic_iff_shared (d : HADevice) (h : Reachable d) :
    (d.getAvailabilityTopic).isSome = true ↔
      d.isSharedAvailabilityEnabled = true :=
  (inv_reachable d h).1

/-- Witness for C6: the state reached by enabling shared availability on a
device constructed with the string ID `"a"`. -/
theorem availabilityTopic_iff_shared_witness :
    ((applyOp (initStr ['a'])
        Op.enableSharedAvailability).getAvailabilityTopic).isSome = true ↔
      (applyOp (initStr ['a'])
        Op.enableSharedAvailability).isSharedAvailabilityEnabled = true :=
  availabilityTopic_iff_shared (applyOp (initStr ['a']) Op.enableSharedAvailability)
    (Reachable.step (initStr ['a']) Op.enableSharedAvailability
      (Reachable.fromString ['a']))

/-- Helper for C8: on any reachable state carrying the unique ID `u`, a
successful `enableSharedAvailability` leaves the topic equal to the one
derived from `u`. -/
theorem topicOfSuccess (d : HADevice) (u : List Char) (hr : Reachable d)
    (hu : d.getUniqueId = some u) :
    (d.enableSharedAvailability).2.getAvailabilityTopic =
      some (availabilityTopicFor u) := by
  simp only [getUniqueId] at hu
  by_cases ht : d.availabilityTopic.isSome = true
  · obtain ⟨t, hteq⟩ := Option.isSome_iff_exists.mp ht
    obtain ⟨u2, hu2, htu⟩ := (inv_reachable d hr).2 t hteq
    have huu : u2 = u := by
      rw [hu] at hu2
      exact (Option.some_inj.mp hu2).symm
    simp [enableSharedAvailability, hu, ht, getAvailabilityTopic, hteq, htu, huu]
  · simp [enableSharedAvailability, hu, ht, getAvailabilityTopic]

/-- C8: after `enableSharedAvailability` succeeds the availability topic is
non-null and is exactly the fixed base, the unique ID and the fixed
availability suffix, so any two reachable instances carrying the same
unique ID end up with character-for-character identical topics. -/
theorem enableSharedAvailability_topic_deterministic
    (d1 d2 : HADevice) (u : List Char)
    (hr1 : Reachable d1) (hr2 : Reachable d2)
    (hu1 : d1.getUniqueId = some u) (hu2 : d2.getUniqueId = some u)
    (hs1 : (d1.enableSharedAvailability).1 = true)
    (hs2 : (d2.enableSharedAvailability).1 = true) :
    (d1.enableSharedAvailability).2.getAvailabilityTopic =
      some (availabilityTopicFor u) ∧
    (d2.enableSharedAvailability).2.getAvailabilityTopic =
      (d1.enableSharedAvailability).2.getAvailabilityTopic := by
  have h1 := topicOfSuccess d1 u hr1 hu1
  have h2 := topicOfSuccess d2 u hr2 hu2
  exact ⟨h1, h2.trans h1.symm⟩

/-- Witness for C8: one instance constructed from the byte array
`{0xAB, 0x01}` and one constructed from the string `"ab01"` get identical
availability topics. -/
theorem enableSharedAvailability_topic_deterministic_witness :
    ((initBytes [171, 1]).enableSharedAvailability).2.getAvailabilityTopic =
      some (availabilityTopicFor ['a', 'b', '0', '1']) ∧
    ((initStr ['a', 'b', '0', '1']).enableSharedAvailability).2.getAvailabilityTopic =
      ((initBytes [171, 1]).enableSharedAvailability).2.getAvailabilityTopic :=
  enableSharedAvailability_topic_deterministic
    (initBytes [171, 1]) (initStr ['a', 'b', '0', '1']) ['a', 'b', '0', '1']
    (Reachable.fromBytes [171, 1]) (Reachable.fromString ['a', 'b', '0', '1'])
    (by decide) (by decide) (by decide) (by decide)

/-- Each single public operation preserves a set shared-availability flag
and a set extended-unique-IDs flag. -/
theorem applyOp_flags_mono (d : HADevice) (op : Op) :
    (d.sharedAvailability = true → (applyOp d op).sharedAvailability = true) ∧
    (d.extendedUniqueIds = true → (applyOp d op).extendedUniqueIds = true) := by
  cases op with
  | setUniqueId bytes =>
    by_cases hc : (d.uniqueId.isSome || bytes.isEmpty) = true <;>
      simp [applyOp, setUniqueId, hc]
  | setManufacturer s => exact ⟨id, id⟩
  | setModel s => exact ⟨id, id⟩
  | setURL s => exact ⟨id, id⟩
  | setName s => exact ⟨id, id⟩
  | setSoftwareVersion s => exact ⟨id, id⟩
  | setConfigurationUrl s => exact ⟨id, id⟩
  | enableExtendedUniqueIds => exact ⟨id, fun _ => rfl⟩
  | enableLastWill => exact ⟨id, id⟩
  | setAvailability c o =>
    by_cases hc : (c && d.sharedAvailability) = true <;>
      simp [applyOp, setAvailability, hc]
  | publishAvailability c =>
    by_cases hc : (c && d.sharedAvailability) = true <;>
      simp [applyOp, publishAvailability, hc]
  | enableSharedAvailability =>
    cases hu : d.uniqueId with
    | none => simp [applyOp, enableSharedAvailability, hu]
    | some uid =>
      by_cases ht : d.availabilityTopic.isSome = true <;>
        simp [applyOp, enableSharedAvailability, hu, ht]

/-- C9: once the shared-availability flag or the extended-unique-IDs flag
reads true, no sequence of public operations ever makes it read false
again. -/
theorem flags_monotonic (d : HADevice) (ops : List Op) :
    (d.isSharedAvailabilityEnabled = true →
      (runOps d ops).isSharedAvailabilityEnabled = true) ∧
    (d.isExtendedUniqueIdsEnabled = true →
      (runOps d ops).isExtendedUniqueIdsEnabled = true) := by
  induction ops generalizing d with
  | nil => exact ⟨id, id⟩
  | cons op rest ih =>
    refine ⟨fun h => ?_, fun h => ?_⟩
    · exact (ih (applyOp d op)).1 ((applyOp_flags_mono d op).1 h)
    · exact (ih (applyOp d op)).2 ((applyOp_flags_mono d op).2 h)

/-- Witness for C9: a device with both flags set, run through a concrete
sequence of further operations. -/
theorem flags_monotonic_witness :
    (runOps ((initStr ['a']).enableSharedAvailability).2.enableExtendedUniqueIds
      [Op.setAvailability true false, Op.publishAvailability true,
       Op.setName ['n']]).isSharedAvailabilityEnabled = true ∧
    (runOps ((initStr ['a']).enableSharedAvailability).2.enableExtendedUniqueIds
      [Op.setAvailability true false, Op.publishAvailability true,
       Op.setName ['n']]).isExtendedUniqueIdsEnabled = true :=
  ⟨(flags_monotonic ((initStr ['a']).enableSharedAvailability).2.enableExtendedUniqueIds
      [Op.setAvailability true false, Op.publishAvailability true,
       Op.setName ['n']]).1 rfl,
   (flags_monotonic ((initStr ['a']).enableSharedAvailability).2.enableExtendedUniqueIds
      [Op.setAvailability true false, Op.publishAvailability true,
       Op.setName ['n']]).2 rfl⟩

end HADevice
